import Mathlib

/-!
Verification of the Shopify app template's webhook ingestion subsystem and
bulk-mutation engine, as a shallow embedding of the TypeScript source.

Embedded modules:
* `app/utils/shopify-webhook.server.ts` — `verifyShopifyWebhookRequest`,
  `readShopifyWebhookJson` (namespace `Webhook`);
* `app/routes/webhooks.customers.data_request.tsx` — the ingestion `action`;
* the `WebhookEvent` table defaults from
  `prisma/migrations/20251224120000_add_webhook_event_queue/migration.sql`;
* `app/routes/app.inventory-reset.tsx` — `chunkArray`, `getAllLocationIds`,
  `getInventoryZeroingChanges`, `inventoryAdjustQuantitiesWithReasonFallback`,
  `runInventoryReset` (namespace `Reset`);
* `app/routes/app._index.tsx` — `archiveProductsByVendor` (namespace `Archive`)
  and `scanInventoryPolicies` (namespace `Scan`).

Remote GraphQL responses are modelled as scripted inputs: a page list for each
paginated query and a response function for each mutation.  JavaScript
truthiness on strings (`"" `is falsy) and on nullable strings is modelled
explicitly by the `truthyStr` / `truthyOpt` / `jsOrOpt` helpers.
-/

/-- JavaScript string truthiness: the empty string is falsy. -/
def truthyStr (s : String) : Bool := s ≠ ""

/-- JavaScript `a || b` on `string | null` values: `a` wins when it is
present and non-empty, otherwise `b` is used. -/
def jsOrOpt (a b : Option String) : Option String :=
  match a with
  | some s => if truthyStr s then some s else b
  | none => b

/-- JavaScript `x || undefined` on a `string | null | undefined` value:
null and the empty string normalize to `undefined` (`none`). -/
def truthyOpt (o : Option String) : Option String :=
  match o with
  | some s => if truthyStr s then some s else none
  | none => none

/-- JavaScript `x || ""` on a `string | null` value. -/
def jsStrOr (o : Option String) : String :=
  match o with
  | some s => if truthyStr s then s else ""
  | none => ""

/-- ASCII lower-casing of one character, the fragment of
`String.prototype.toLowerCase` exercised by ASCII header names. -/
def charToLower (c : Char) : Char :=
  if c.toNat ≥ 65 ∧ c.toNat ≤ 90 then Char.ofNat (c.toNat + 32) else c

/-- `name.toLowerCase()` for ASCII strings. -/
def strToLower (s : String) : String := ⟨s.data.map charToLower⟩

/-- UTF-8 encoding of one code point (`Buffer.from(s, "utf8")`, per char). -/
def utf8Bytes (c : Nat) : List Nat :=
  if c < 128 then [c]
  else if c < 2048 then [192 ||| (c >>> 6), 128 ||| (c &&& 63)]
  else if c < 65536 then
    [224 ||| (c >>> 12), 128 ||| ((c >>> 6) &&& 63), 128 ||| (c &&& 63)]
  else
    [240 ||| (c >>> 18), 128 ||| ((c >>> 12) &&& 63),
     128 ||| ((c >>> 6) &&& 63), 128 ||| (c &&& 63)]

/-- The byte sequence of `Buffer.from(s, "utf8")`. -/
def toBytes (s : String) : List Nat :=
  (s.data.map (fun ch => utf8Bytes ch.toNat)).flatten

/-- `crypto.timingSafeEqual` on two equal-length buffers: XOR every byte
pair and OR the results together, so no byte comparison short-circuits;
the buffers are equal exactly when the accumulated word is zero. -/
def timingSafeEqual (a b : List Nat) : Bool :=
  ((a.zip b).foldl (fun acc p => acc ||| (p.1 ^^^ p.2)) 0) == 0

namespace Webhook

/-- The incoming HTTP request as the verifier sees it: the raw text body and
the header map (`Headers#get` returns `null` for an absent header). -/
structure WebhookRequest where
  rawBody : String
  headers : String → Option String

/-- `getHeader`: try the exact header name, then its lower-cased form. -/
def getHeader (headers : String → Option String) (name : String) : Option String :=
  jsOrOpt (headers name) (headers (strToLower name))

/-- The `ok: true` arm of `ShopifyWebhookAuthResult`. -/
structure AuthOk where
  topic : String
  shop : String
  webhookId : Option String
  apiVersion : Option String
deriving DecidableEq, Repr

/-- `verifyShopifyWebhookRequest`, parametrized by the base64 HMAC-SHA256
function `hmacBase64 : secret → body → digest` and the
`SHOPIFY_API_SECRET` environment value.  The `ok: false` arm is the
`Except.error` case carrying `(status, message)`. -/
def verifyShopifyWebhookRequest (hmacBase64 : String → String → String)
    (secret : Option String) (req : WebhookRequest) :
    Except (Nat × String) AuthOk :=
  match truthyOpt secret with
  | none => .error (500, "Missing SHOPIFY_API_SECRET")
  | some s =>
    match truthyOpt (getHeader req.headers "X-Shopify-Hmac-Sha256") with
    | none => .error (401, "Missing HMAC header")
    | some hmacHeader =>
      let digest := hmacBase64 s req.rawBody
      let a := toBytes digest
      let b := toBytes hmacHeader
      if a.length ≠ b.length ∨ ¬ timingSafeEqual a b then
        .error (401, "Invalid HMAC")
      else
        let topic := jsStrOr (getHeader req.headers "X-Shopify-Topic")
        let shop := jsStrOr (getHeader req.headers "X-Shopify-Shop-Domain")
        let webhookId := truthyOpt (getHeader req.headers "X-Shopify-Webhook-Id")
        let apiVersion := truthyOpt (getHeader req.headers "X-Shopify-Api-Version")
        if ¬ truthyStr topic ∨ ¬ truthyStr shop then
          .error (400, "Missing topic/shop headers")
        else
          .ok ⟨topic, shop, webhookId, apiVersion⟩

/-- Status column of the `WebhookEvent` table (`WebhookEventStatus` enum in
the migration). -/
inductive WebhookEventStatus
  | PENDING
  | PROCESSING
  | SUCCEEDED
  | FAILED
deriving DecidableEq, Repr

/-- One `WebhookEvent` row; `J` is the JSON document type of `payload`. -/
structure WebhookEvent (J : Type) where
  topic : String
  shop : String
  webhookId : Option String
  apiVersion : Option String
  payload : J
  status : WebhookEventStatus
  attempts : Nat
deriving DecidableEq, Repr

/-- `db.webhookEvent.create`: the route supplies topic/shop/metadata/payload
only, so `status` and `attempts` take the column defaults declared in the
migration (`'PENDING'` and `0`). -/
def webhookEventCreate {J : Type} (db : List (WebhookEvent J))
    (topic shop : String) (webhookId apiVersion : Option String)
    (payload : J) : List (WebhookEvent J) :=
  db ++ [⟨topic, shop, webhookId, apiVersion, payload, .PENDING, 0⟩]

/-- `readShopifyWebhookJson`: an empty body parses to the empty document,
otherwise `JSON.parse(rawBody)` runs (`none` models a thrown parse error). -/
def readShopifyWebhookJson {J : Type} (parse : String → Option J)
    (emptyDoc : J) (rawBody : String) : Option J :=
  if truthyStr rawBody then parse rawBody else some emptyDoc

/-- The webhook route `action`: verify, parse, persist, acknowledge.  The
result is the `(status, body)` response plus the table contents after the
request; `Except.error` models a JSON parse exception escaping the handler
(the framework then answers with an error response, never 200). -/
def ingestAction {J : Type} (hmacBase64 : String → String → String)
    (parse : String → Option J) (emptyDoc : J) (secret : Option String)
    (req : WebhookRequest) (db : List (WebhookEvent J)) :
    Except String ((Nat × String) × List (WebhookEvent J)) :=
  match verifyShopifyWebhookRequest hmacBase64 secret req with
  | .error e => .ok ((e.1, e.2), db)
  | .ok auth =>
    match readShopifyWebhookJson parse emptyDoc req.rawBody with
    | none => .error "JSON.parse exception"
    | some payload =>
      .ok ((200, "OK"),
        webhookEventCreate db auth.topic auth.shop auth.webhookId
          auth.apiVersion payload)

end Webhook

section TimingLemmas

theorem nat_lor_eq_zero {a b : Nat} : a ||| b = 0 ↔ a = 0 ∧ b = 0 := by
  constructor
  · intro h
    constructor
    · apply Nat.eq_of_testBit_eq
      intro i
      have hb := congrArg (fun n => Nat.testBit n i) h
      simp only [Nat.testBit_or, Nat.zero_testBit, Bool.or_eq_false_iff] at hb
      simp [hb.1]
    · apply Nat.eq_of_testBit_eq
      intro i
      have hb := congrArg (fun n => Nat.testBit n i) h
      simp only [Nat.testBit_or, Nat.zero_testBit, Bool.or_eq_false_iff] at hb
      simp [hb.2]
  · rintro ⟨rfl, rfl⟩
    rfl

theorem timing_foldl_eq_zero (l : List (Nat × Nat)) :
    ∀ acc : Nat,
      (l.foldl (fun acc p => acc ||| (p.1 ^^^ p.2)) acc = 0 ↔
        acc = 0 ∧ ∀ p ∈ l, p.1 = p.2) := by
  induction l with
  | nil => intro acc; simp
  | cons p l ih =>
    intro acc
    simp only [List.foldl_cons, ih, nat_lor_eq_zero, Nat.xor_eq_zero,
      List.mem_cons]
    constructor
    · rintro ⟨⟨h1, h2⟩, h3⟩
      exact ⟨h1, fun q hq => hq.elim (fun e => e ▸ h2) (h3 q)⟩
    · rintro ⟨h1, h2⟩
      exact ⟨⟨h1, h2 p (Or.inl rfl)⟩, fun q hq => h2 q (Or.inr hq)⟩

theorem timingSafeEqual_iff {a b : List Nat} (h : a.length = b.length) :
    timingSafeEqual a b = true ↔ a = b := by
  unfold timingSafeEqual
  rw [beq_iff_eq, timing_foldl_eq_zero]
  simp only [true_and]
  constructor
  · intro hall
    exact List.ext_get (by omega) (fun i h1 h2 => by
      have := hall (a.get ⟨i, h1⟩, b.get ⟨i, h2⟩)
        (by
          rw [List.mem_iff_get]
          exact ⟨⟨i, by simpa [List.length_zip, h] using h1⟩, by
            simp [List.get_zip]⟩)
      simpa using this)
  · rintro rfl p hp
    rw [List.mem_iff_get] at hp
    obtain ⟨i, hi⟩ := hp
    rw [List.get_zip] at hi
    rw [← hi]

end TimingLemmas

theorem verify_error_status (hmac : String → String → String)
    (secret : Option String) (req : Webhook.WebhookRequest)
    (e : Nat × String)
    (h : Webhook.verifyShopifyWebhookRequest hmac secret req = .error e) :
    e.1 = 500 ∨ e.1 = 401 ∨ e.1 = 400 := by
  unfold Webhook.verifyShopifyWebhookRequest at h
  split at h
  · cases h; left; rfl
  · dsimp only at h
    split at h
    · cases h; right; left; rfl
    · split at h
      · cases h; right; left; rfl
      · split at h
        · cases h; right; right; rfl
        · cases h

/-- C2: `verifyShopifyWebhookRequest` returns status 500 when the shared
secret is unset, 401 when the signature header is absent, 401 "Invalid HMAC"
when the base64 HMAC digest's bytes differ from the header's bytes (the
length-checked constant-time comparison succeeds exactly on equal byte
strings), 400 when the signature verifies but topic or shop is missing, and
`ok` with the extracted metadata otherwise. -/
theorem spec_C2 (hmac : String → String → String) (secret : Option String)
    (req : Webhook.WebhookRequest) :
    (truthyOpt secret = none →
      Webhook.verifyShopifyWebhookRequest hmac secret req =
        .error (500, "Missing SHOPIFY_API_SECRET")) ∧
    (∀ s, truthyOpt secret = some s →
      (truthyOpt (Webhook.getHeader req.headers "X-Shopify-Hmac-Sha256") = none →
        Webhook.verifyShopifyWebhookRequest hmac secret req =
          .error (401, "Missing HMAC header")) ∧
      (∀ hm,
        truthyOpt (Webhook.getHeader req.headers "X-Shopify-Hmac-Sha256") = some hm →
        (toBytes (hmac s req.rawBody) ≠ toBytes hm →
          Webhook.verifyShopifyWebhookRequest hmac secret req =
            .error (401, "Invalid HMAC")) ∧
        (toBytes (hmac s req.rawBody) = toBytes hm →
          (¬ truthyStr (jsStrOr (Webhook.getHeader req.headers "X-Shopify-Topic")) ∨
           ¬ truthyStr (jsStrOr (Webhook.getHeader req.headers "X-Shopify-Shop-Domain")) →
            Webhook.verifyShopifyWebhookRequest hmac secret req =
              .error (400, "Missing topic/shop headers")) ∧
          (truthyStr (jsStrOr (Webhook.getHeader req.headers "X-Shopify-Topic")) = true →
           truthyStr (jsStrOr (Webhook.getHeader req.headers "X-Shopify-Shop-Domain")) = true →
            Webhook.verifyShopifyWebhookRequest hmac secret req =
              .ok ⟨jsStrOr (Webhook.getHeader req.headers "X-Shopify-Topic"),
                   jsStrOr (Webhook.getHeader req.headers "X-Shopify-Shop-Domain"),
                   truthyOpt (Webhook.getHeader req.headers "X-Shopify-Webhook-Id"),
                   truthyOpt (Webhook.getHeader req.headers "X-Shopify-Api-Version")⟩)))) ∧
    (∀ a b : List Nat, (a.length = b.length ∧ timingSafeEqual a b = true) ↔ a = b) := by
  refine ⟨?_, ?_, ?_⟩
  · intro h
    unfold Webhook.verifyShopifyWebhookRequest
    rw [h]
  · intro s hs
    constructor
    · intro hh
      unfold Webhook.verifyShopifyWebhookRequest
      rw [hs, hh]
    · intro hm hhm
      constructor
      · intro hne
        unfold Webhook.verifyShopifyWebhookRequest
        rw [hs, hhm]
        simp only
        rw [if_pos]
        rcases eq_or_ne (toBytes (hmac s req.rawBody)).length
            (toBytes hm).length with heq | hlen
        · right
          intro ht
          exact hne ((timingSafeEqual_iff heq).mp ht)
        · left
          exact hlen
      · intro heqB
        have hcond : ¬ ((toBytes (hmac s req.rawBody)).length ≠ (toBytes hm).length ∨
            ¬ timingSafeEqual (toBytes (hmac s req.rawBody)) (toBytes hm)) := by
          push_neg
          refine ⟨congrArg List.length heqB, ?_⟩
          exact (timingSafeEqual_iff (congrArg List.length heqB)).mpr heqB
        constructor
        · intro hmiss
          unfold Webhook.verifyShopifyWebhookRequest
          rw [hs, hhm]
          simp only
          rw [if_neg hcond, if_pos hmiss]
        · intro ht1 ht2
          unfold Webhook.verifyShopifyWebhookRequest
          rw [hs, hhm]
          simp only
          rw [if_neg hcond, if_neg (by rw [ht1, ht2]; simp)]
  · intro a b
    constructor
    · rintro ⟨hl, ht⟩
      exact (timingSafeEqual_iff hl).mp ht
    · rintro rfl
      exact ⟨rfl, (timingSafeEqual_iff rfl).mpr rfl⟩

theorem spec_C2_witness :
    Webhook.verifyShopifyWebhookRequest (fun _ _ => "sig") (some "shh")
      ⟨"rawbody", fun n =>
        if n = "X-Shopify-Hmac-Sha256" then some "sig"
        else if n = "X-Shopify-Topic" then some "customers/data_request"
        else if n = "X-Shopify-Shop-Domain" then some "x.myshopify.com"
        else none⟩ =
      .ok ⟨"customers/data_request", "x.myshopify.com", none, none⟩ := by
  have h := spec_C2 (fun _ _ => "sig") (some "shh")
    ⟨"rawbody", fun n =>
      if n = "X-Shopify-Hmac-Sha256" then some "sig"
      else if n = "X-Shopify-Topic" then some "customers/data_request"
      else if n = "X-Shopify-Shop-Domain" then some "x.myshopify.com"
      else none⟩
  have h2 := ((h.2.1 "shh" (by decide)).2 "sig" (by decide)).2 rfl
  exact (h2.2 (by decide) (by decide)).trans (by rfl)

/-- C1: the ingestion action is atomic.  When signature verification fails it
answers with the verifier's (non-200) status and inserts zero rows; when it
succeeds and the body parses, it appends exactly one `WebhookEvent` row with
status `PENDING` and `attempts = 0` and answers `200 "OK"`; every non-thrown
response is either a 200 with exactly one new row or a non-200 with the table
unchanged. -/
theorem spec_C1 (J : Type) (hmac : String → String → String)
    (parse : String → Option J) (emptyDoc : J) (secret : Option String)
    (req : Webhook.WebhookRequest) (db : List (Webhook.WebhookEvent J)) :
    (∀ e, Webhook.verifyShopifyWebhookRequest hmac secret req = .error e →
      Webhook.ingestAction hmac parse emptyDoc secret req db =
        .ok ((e.1, e.2), db) ∧ e.1 ≠ 200) ∧
    (∀ auth payload,
      Webhook.verifyShopifyWebhookRequest hmac secret req = .ok auth →
      Webhook.readShopifyWebhookJson parse emptyDoc req.rawBody = some payload →
      Webhook.ingestAction hmac parse emptyDoc secret req db =
        .ok ((200, "OK"), db ++
          [⟨auth.topic, auth.shop, auth.webhookId, auth.apiVersion, payload,
            .PENDING, 0⟩])) ∧
    (∀ resp db2,
      Webhook.ingestAction hmac parse emptyDoc secret req db = .ok (resp, db2) →
      (resp.1 = 200 ∧ resp.2 = "OK" ∧
        ∃ row, db2 = db ++ [row] ∧
          row.status = Webhook.WebhookEventStatus.PENDING ∧ row.attempts = 0) ∨
      (resp.1 ≠ 200 ∧ db2 = db)) := by
  refine ⟨?_, ?_, ?_⟩
  · intro e he
    constructor
    · unfold Webhook.ingestAction
      rw [he]
    · have := verify_error_status hmac secret req e he
      omega
  · intro auth payload hv hp
    unfold Webhook.ingestAction
    rw [hv, hp]
    rfl
  · intro resp db2 h
    unfold Webhook.ingestAction at h
    split at h
    · rename_i e he
      cases h
      right
      have := verify_error_status hmac secret req e he
      exact ⟨by omega, rfl⟩
    · rename_i auth _
      split at h
      · cases h
      · rename_i payload _
        cases h
        left
        exact ⟨rfl, rfl,
          ⟨⟨auth.topic, auth.shop, auth.webhookId, auth.apiVersion, payload,
            .PENDING, 0⟩, rfl, rfl, rfl⟩⟩

theorem spec_C1_witness :
    Webhook.ingestAction (J := String) (fun _ _ => "sig") (fun s => some s)
      "emptyDoc" (some "shh")
      ⟨"payload-a-1", fun n =>
        if n = "X-Shopify-Hmac-Sha256" then some "sig"
        else if n = "X-Shopify-Topic" then some "customers/data_request"
        else if n = "X-Shopify-Shop-Domain" then some "x.myshopify.com"
        else none⟩ [] =
      .ok ((200, "OK"),
        [⟨"customers/data_request", "x.myshopify.com", none, none,
          "payload-a-1", .PENDING, 0⟩]) := by
  have h := spec_C1 String (fun _ _ => "sig") (fun s => some s) "emptyDoc"
    (some "shh")
    ⟨"payload-a-1", fun n =>
      if n = "X-Shopify-Hmac-Sha256" then some "sig"
      else if n = "X-Shopify-Topic" then some "customers/data_request"
      else if n = "X-Shopify-Shop-Domain" then some "x.myshopify.com"
      else none⟩ []
  exact (h.2.1 ⟨"customers/data_request", "x.myshopify.com", none, none⟩
    "payload-a-1" (by rfl) (by rfl)).trans (by rfl)

namespace Reset

/-- The slicing loop of `chunkArray`, fuel-indexed for structural recursion:
`fuel ≥ xs.length` makes the fuel bound immaterial because every iteration
with a positive chunk size consumes at least one element. -/
def chunksGo {α : Type} (n : Nat) : Nat → List α → List (List α)
  | _, [] => []
  | 0, _ :: _ => []
  | fuel + 1, x :: xs =>
    ((x :: xs).take n) :: chunksGo n fuel ((x :: xs).drop n)

/-- `chunkArray`: a non-positive chunk size returns the whole array as one
chunk; otherwise the `for (let i = 0; i < arr.length; i += chunkSize)` loop
pushes `arr.slice(i, i + chunkSize)` per iteration. -/
def chunkArray {α : Type} (arr : List α) (chunkSize : Int) : List (List α) :=
  if chunkSize ≤ 0 then [arr] else chunksGo chunkSize.toNat arr.length arr

theorem chunksGo_nil {α : Type} (n fuel : Nat) :
    chunksGo (α := α) n fuel [] = [] := by
  cases fuel <;> rfl

theorem chunksGo_cons {α : Type} (n fuel : Nat) (x : α) (xs : List α) :
    chunksGo n (fuel + 1) (x :: xs) =
      ((x :: xs).take n) :: chunksGo n fuel ((x :: xs).drop n) := rfl

theorem chunksGo_flatten {α : Type} (n : Nat) (hn : 0 < n) :
    ∀ fuel (xs : List α), xs.length ≤ fuel →
      (chunksGo n fuel xs).flatten = xs := by
  intro fuel
  induction fuel with
  | zero =>
    intro xs hle
    rw [List.length_eq_zero.mp (Nat.le_zero.mp hle)]
    rfl
  | succ fuel ih =>
    intro xs hle
    cases xs with
    | nil => rfl
    | cons x xs =>
      rw [chunksGo_cons, List.flatten_cons, ih]
      · exact List.take_append_drop n (x :: xs)
      · rw [List.length_drop]
        simp only [List.length_cons] at hle ⊢
        omega

theorem chunksGo_length_le {α : Type} (n : Nat) (hn : 0 < n) :
    ∀ fuel (xs : List α), xs.length ≤ fuel →
      ∀ c ∈ chunksGo n fuel xs, c.length ≤ n ∧ c ≠ [] := by
  intro fuel
  induction fuel with
  | zero =>
    intro xs hle c hc
    rw [List.length_eq_zero.mp (Nat.le_zero.mp hle), chunksGo_nil] at hc
    cases hc
  | succ fuel ih =>
    intro xs hle c hc
    cases xs with
    | nil => rw [chunksGo_nil] at hc; cases hc
    | cons x xs =>
      rw [chunksGo_cons] at hc
      rcases List.mem_cons.mp hc with rfl | hmem
      · constructor
        · exact List.length_take_le n (x :: xs)
        · have : n ≤ (x :: xs).length ∨ (x :: xs).length < n := by omega
          intro hemp
          have := congrArg List.length hemp
          simp only [List.length_take, List.length_cons, List.length_nil] at this
          omega
      · refine ih _ ?_ c hmem
        simp only [List.length_drop, List.length_cons] at hle ⊢
        omega

theorem chunksGo_dropLast_length {α : Type} (n : Nat) (hn : 0 < n) :
    ∀ fuel (xs : List α), xs.length ≤ fuel →
      ∀ c ∈ (chunksGo n fuel xs).dropLast, c.length = n := by
  intro fuel
  induction fuel with
  | zero =>
    intro xs hle c hc
    rw [List.length_eq_zero.mp (Nat.le_zero.mp hle), chunksGo_nil] at hc
    cases hc
  | succ fuel ih =>
    intro xs hle c hc
    cases xs with
    | nil => rw [chunksGo_nil] at hc; cases hc
    | cons x xs =>
      rw [chunksGo_cons] at hc
      rcases eq_or_ne (chunksGo n fuel ((x :: xs).drop n)) [] with hrest | hrest
      · rw [hrest] at hc
        cases hc
      · rw [List.dropLast_cons_of_ne_nil hrest] at hc
        rcases List.mem_cons.mp hc with rfl | hmem
        · have hlong : n < (x :: xs).length := by
            by_contra hshort
            push_neg at hshort
            have : (x :: xs).drop n = [] := List.drop_eq_nil_of_le hshort
            rw [this, chunksGo_nil] at hrest
            exact hrest rfl
          simp only [List.length_take, List.length_cons] at hlong ⊢
          omega
        · refine ih _ ?_ c hmem
          simp only [List.length_drop, List.length_cons] at hle ⊢
          omega

end Reset

set_option maxRecDepth 8000 in
/-- C7: for a positive chunk size `n`, `chunkArray` returns contiguous
chunks in order whose concatenation is the input, every chunk is non-empty
of length at most `n`, and every chunk except possibly the last has length
exactly `n`; a non-positive chunk size gives one chunk holding the whole
array; 530 items with `n = 250` chunk into lengths `[250, 250, 30]`. -/
theorem spec_C7 :
    (∀ (α : Type) (arr : List α) (n : Int), n ≤ 0 →
      Reset.chunkArray arr n = [arr]) ∧
    (∀ (α : Type) (arr : List α) (n : Int), 0 < n →
      (Reset.chunkArray arr n).flatten = arr ∧
      (∀ c ∈ Reset.chunkArray arr n, c.length ≤ n.toNat ∧ c ≠ []) ∧
      (∀ c ∈ (Reset.chunkArray arr n).dropLast, c.length = n.toNat)) ∧
    (Reset.chunkArray (List.range 530) 250).map List.length = [250, 250, 30] := by
  refine ⟨?_, ?_, ?_⟩
  · intro α arr n hn
    unfold Reset.chunkArray
    rw [if_pos hn]
  · intro α arr n hn
    have hpos : 0 < n.toNat := by omega
    unfold Reset.chunkArray
    rw [if_neg (by omega)]
    exact ⟨Reset.chunksGo_flatten n.toNat hpos arr.length arr le_rfl,
      Reset.chunksGo_length_le n.toNat hpos arr.length arr le_rfl,
      Reset.chunksGo_dropLast_length n.toNat hpos arr.length arr le_rfl⟩
  · decide

theorem spec_C7_witness :
    Reset.chunkArray ([3, 1, 4, 1, 5] : List Nat) (-2) = [[3, 1, 4, 1, 5]] ∧
    (Reset.chunkArray ([3, 1, 4, 1, 5] : List Nat) 2).flatten =
      [3, 1, 4, 1, 5] := by
  constructor
  · exact (spec_C7.1 Nat [3, 1, 4, 1, 5] (-2) (by omega))
  · exact (spec_C7.2.1 Nat [3, 1, 4, 1, 5] 2 (by omega)).1

namespace Reset

/-- One page of a GraphQL connection (`nodes` plus `pageInfo`). -/
structure Page (α : Type) where
  nodes : List α
  hasNextPage : Bool
  endCursor : Option String

/-- One node of the `locations` query: `id` and `name`. -/
structure Loc where
  id : String
  name : String

/-- The `while (true)` loop of `getAllLocationIds`, run against a scripted
remote that answers the i-th request with the i-th page of `pages`.  The
result pairs the collected ids with the trace of `after` cursors sent, one
entry per remote call; `none` models a remote whose script ran out while
`hasNextPage` was still true (the source loop would keep calling). -/
def getAllLocationIdsGo : List (Page Loc) → Option String →
    Option (List String × List (Option String))
  | [], _ => none
  | p :: rest, after =>
    if p.hasNextPage then
      match getAllLocationIdsGo rest (truthyOpt p.endCursor) with
      | none => none
      | some (ids, trace) => some (p.nodes.map Loc.id ++ ids, after :: trace)
    else
      some (p.nodes.map Loc.id, [after])

/-- `getAllLocationIds`: the first request carries a null cursor. -/
def getAllLocationIds (pages : List (Page Loc)) :
    Option (List String × List (Option String)) :=
  getAllLocationIdsGo pages none

theorem getAllLocationIdsGo_spec (q : Page Loc) (hq : q.hasNextPage = false) :
    ∀ (ps : List (Page Loc)), (∀ p ∈ ps, p.hasNextPage = true) →
      ∀ after, getAllLocationIdsGo (ps ++ [q]) after =
        some (((ps ++ [q]).map (fun p => p.nodes.map Loc.id)).flatten,
          after :: ps.map (fun p => truthyOpt p.endCursor)) := by
  intro ps
  induction ps with
  | nil =>
    intro _ after
    simp [getAllLocationIdsGo, hq]
  | cons p ps ih =>
    intro hall after
    have hp : p.hasNextPage = true := hall p (List.mem_cons_self p ps)
    have ihh := ih (fun r hr => hall r (List.mem_cons_of_mem p hr))
      (truthyOpt p.endCursor)
    simp only [List.cons_append, getAllLocationIdsGo, hp, if_pos, List.append_eq]
    rw [ihh]
    simp [List.flatten_append]

end Reset

/-- C6: the pagination loop sends its first request with a null cursor,
appends each page's nodes in order, advances the cursor to the returned
`endCursor` while `hasNextPage` is true, and stops at the first page with
`hasNextPage = false`; the call trace has one entry per consumed page.  On
the page script `[A, B], [C], []` with `hasNextPage = true, true, false` it
collects `[A, B, C]` and makes exactly 3 calls. -/
theorem spec_C6 :
    (∀ (ps : List (Reset.Page Reset.Loc)) (q : Reset.Page Reset.Loc),
      q.hasNextPage = false → (∀ p ∈ ps, p.hasNextPage = true) →
      Reset.getAllLocationIds (ps ++ [q]) =
        some (((ps ++ [q]).map (fun p => p.nodes.map Reset.Loc.id)).flatten,
          none :: ps.map (fun p => truthyOpt p.endCursor))) ∧
    (∀ res, Reset.getAllLocationIds
        [⟨[⟨"A", "a"⟩, ⟨"B", "b"⟩], true, some "c1"⟩,
         ⟨[⟨"C", "c"⟩], true, some "c2"⟩,
         ⟨[], false, none⟩] = some res →
      res.1 = ["A", "B", "C"] ∧ res.2.length = 3) := by
  constructor
  · intro ps q hq hall
    exact Reset.getAllLocationIdsGo_spec q hq ps hall none
  · intro res h
    have : res = (["A", "B", "C"], [none, some "c1", some "c2"]) := by
      have hrfl : Reset.getAllLocationIds
          [⟨[⟨"A", "a"⟩, ⟨"B", "b"⟩], true, some "c1"⟩,
           ⟨[⟨"C", "c"⟩], true, some "c2"⟩,
           ⟨[], false, none⟩] =
          some (["A", "B", "C"], [none, some "c1", some "c2"]) := by rfl
      rw [hrfl] at h
      exact (Option.some.inj h).symm
    rw [this]
    exact ⟨rfl, rfl⟩

theorem spec_C6_witness :
    Reset.getAllLocationIds
      [⟨[⟨"A", "a"⟩, ⟨"B", "b"⟩], true, some "c1"⟩,
       ⟨[⟨"C", "c"⟩], true, some "c2"⟩,
       ⟨[], false, none⟩] =
      some (["A", "B", "C"], [none, some "c1", some "c2"]) := by
  have h := spec_C6.1
    [⟨[⟨"A", "a"⟩, ⟨"B", "b"⟩], true, some "c1"⟩,
     ⟨[⟨"C", "c"⟩], true, some "c2"⟩]
    ⟨[], false, none⟩ rfl (by
      intro p hp
      rcases List.mem_cons.mp hp with rfl | hp2
      · rfl
      · rcases List.mem_cons.mp hp2 with rfl | hp3
        · rfl
        · cases hp3)
  exact h.trans (by rfl)

namespace Reset

/-- One entry of `quantities(names: ["available"])`. -/
structure Quantity where
  name : String
  quantity : Int
deriving DecidableEq, Repr

/-- One node of `inventoryLevels`: its location id and quantity entries. -/
structure InvLevel where
  locationId : String
  quantities : List Quantity
deriving DecidableEq, Repr

/-- One element of the `nodes(ids:)` response: an `InventoryItem` with its
inventory levels, a node of some other typename, or `null`. -/
inductive InvNode
  | item (id : String) (levels : List InvLevel)
  | other (typename : String)
  | null
deriving DecidableEq, Repr

/-- `InventoryChangeInputLike`. -/
structure InventoryChange where
  inventoryItemId : String
  locationId : String
  delta : Int
deriving DecidableEq, Repr

/-- The changes one inventory level contributes inside
`getInventoryZeroingChanges`: skip locations outside the allowed set, skip
levels with no "available" entry, skip zero quantities, otherwise push one
change whose delta is the negated available quantity. -/
def levelChanges (itemId : String) (allowedLocationIds : List String)
    (level : InvLevel) : List InventoryChange :=
  if allowedLocationIds.contains level.locationId then
    match level.quantities.find? (fun q => q.name == "available") with
    | none => []
    | some available =>
      if available.quantity == 0 then []
      else [⟨itemId, level.locationId, -available.quantity⟩]
  else []

/-- The changes one `nodes(ids:)` element contributes: non-`InventoryItem`
nodes and `null` entries are skipped. -/
def nodeChanges (allowedLocationIds : List String) : InvNode →
    List InventoryChange
  | .item id levels => (levels.map (levelChanges id allowedLocationIds)).flatten
  | .other _ => []
  | .null => []

/-- `getInventoryZeroingChanges`: fetch the levels of the requested item ids
in chunks of 50 (`nodeOf` scripts the per-id element of each `nodes(ids:)`
response) and accumulate every level's changes. -/
def getInventoryZeroingChanges (nodeOf : String → InvNode)
    (inventoryItemIds : List String) (allowedLocationIds : List String) :
    List InventoryChange :=
  ((chunkArray inventoryItemIds 50).map
    (fun chunk =>
      ((chunk.map nodeOf).map (nodeChanges allowedLocationIds)).flatten)).flatten

end Reset

/-- C5: a fetched inventory level at an allowed location with a non-zero
"available" quantity contributes exactly one change with delta equal to the
negated quantity; a level at a disallowed location, without an "available"
entry, or with quantity 0 contributes none — and `getInventoryZeroingChanges`
on a single item id emits exactly the per-level changes of that item's
levels. -/
theorem spec_C5 :
    (∀ (itemId : String) (allowed : List String) (level : Reset.InvLevel),
      (allowed.contains level.locationId = false →
        Reset.levelChanges itemId allowed level = []) ∧
      (allowed.contains level.locationId = true →
        (level.quantities.find? (fun q => q.name == "available") = none →
          Reset.levelChanges itemId allowed level = []) ∧
        (∀ available,
          level.quantities.find? (fun q => q.name == "available") =
            some available →
          (available.quantity = 0 →
            Reset.levelChanges itemId allowed level = []) ∧
          (available.quantity ≠ 0 →
            Reset.levelChanges itemId allowed level =
              [⟨itemId, level.locationId, -available.quantity⟩])))) ∧
    (∀ (nodeOf : String → Reset.InvNode) (id : String)
        (levels : List Reset.InvLevel) (allowed : List String),
      nodeOf id = Reset.InvNode.item id levels →
      Reset.getInventoryZeroingChanges nodeOf [id] allowed =
        (levels.map (Reset.levelChanges id allowed)).flatten) := by
  constructor
  · intro itemId allowed level
    constructor
    · intro h
      unfold Reset.levelChanges
      rw [h]
      rfl
    · intro h
      constructor
      · intro hfind
        unfold Reset.levelChanges
        rw [h, hfind]
        rfl
      · intro available hfind
        constructor
        · intro hz
          unfold Reset.levelChanges
          rw [h, hfind]
          simp [hz]
        · intro hnz
          unfold Reset.levelChanges
          rw [h, hfind]
          simp [hnz]
  · intro nodeOf id levels allowed h
    unfold Reset.getInventoryZeroingChanges
    have hchunk : Reset.chunkArray [id] 50 = [[id]] := rfl
    rw [hchunk]
    simp [Reset.nodeChanges, h]

theorem spec_C5_witness :
    Reset.levelChanges "item1" ["L1"]
      ⟨"L1", [⟨"available", 7⟩]⟩ = [⟨"item1", "L1", -7⟩] ∧
    Reset.levelChanges "item1" ["L1"] ⟨"L1", [⟨"available", 0⟩]⟩ = [] ∧
    Reset.levelChanges "item1" ["L1"] ⟨"L2", [⟨"available", 9⟩]⟩ = [] ∧
    Reset.getInventoryZeroingChanges
      (fun _ => Reset.InvNode.item "item1" [⟨"L1", [⟨"available", 7⟩]⟩])
      ["item1"] ["L1"] = [⟨"item1", "L1", -7⟩] := by
  have h := spec_C5
  refine ⟨?_, ?_, ?_, ?_⟩
  · exact (((h.1 "item1" ["L1"] ⟨"L1", [⟨"available", 7⟩]⟩).2 rfl).2
      ⟨"available", 7⟩ rfl).2 (by decide)
  · exact (((h.1 "item1" ["L1"] ⟨"L1", [⟨"available", 0⟩]⟩).2 rfl).2
      ⟨"available", 0⟩ rfl).1 rfl
  · exact (h.1 "item1" ["L1"] ⟨"L2", [⟨"available", 9⟩]⟩).1 rfl
  · exact (h.2 (fun _ => Reset.InvNode.item "item1" [⟨"L1", [⟨"available", 7⟩]⟩])
      "item1" [⟨"L1", [⟨"available", 7⟩]⟩] ["L1"] rfl).trans (by decide)

namespace Reset

/-- A GraphQL mutation user-error: `message` plus optional `code`. -/
structure UserError where
  message : String
  code : Option String
deriving DecidableEq, Repr

/-- The `inventoryAdjustQuantities` payload the caller inspects. -/
structure AdjustResp where
  inventoryAdjustmentGroup : Option String
  userErrors : List UserError
deriving DecidableEq, Repr

/-- The fixed candidate list of `reason` values. -/
def reasonFallbacks : List String := ["correction", "cycle_count", "other"]

/-- `some((e) => e.code === "INVALID_REASON")` over a response's
user-errors. -/
def hasInvalidReason (resp : AdjustResp) : Bool :=
  resp.userErrors.any (fun e => e.code == some "INVALID_REASON")

/-- The `for (const reason of reasonFallbacks)` loop: one remote call per
candidate, returning the first response without an `INVALID_REASON`
user-error together with the number of calls made.  `call` scripts the
remote response per reason.  `last` carries `lastResponse`; the `[]` case
returns it (the source's `lastResponse!` non-null assertion, reachable only
for an empty candidate list). -/
def fallbackGo (call : String → AdjustResp) :
    List String → AdjustResp → AdjustResp × Nat
  | [], last => (last, 0)
  | reason :: rest, _ =>
    let inv := call reason
    if hasInvalidReason inv then
      let p := fallbackGo call rest inv
      (p.1, p.2 + 1)
    else (inv, 1)

/-- `inventoryAdjustQuantitiesWithReasonFallback` (the initial accumulator
mirrors `lastResponse = null`; it is never returned because the candidate
list is non-empty). -/
def inventoryAdjustQuantitiesWithReasonFallback
    (call : String → AdjustResp) : AdjustResp × Nat :=
  fallbackGo call reasonFallbacks ⟨none, []⟩

end Reset

/-- C4: the fallback tries "correction", "cycle_count", "other" in order,
one remote call per attempt, returns the first response without an
`INVALID_REASON` user-error immediately (responses with only other error
codes included), and after three `INVALID_REASON` responses it stops at
exactly 3 calls returning the last response. -/
theorem spec_C4 (call : String → Reset.AdjustResp) :
    (Reset.hasInvalidReason (call "correction") = false →
      Reset.inventoryAdjustQuantitiesWithReasonFallback call =
        (call "correction", 1)) ∧
    (Reset.hasInvalidReason (call "correction") = true →
      Reset.hasInvalidReason (call "cycle_count") = false →
      Reset.inventoryAdjustQuantitiesWithReasonFallback call =
        (call "cycle_count", 2)) ∧
    (Reset.hasInvalidReason (call "correction") = true →
      Reset.hasInvalidReason (call "cycle_count") = true →
      Reset.inventoryAdjustQuantitiesWithReasonFallback call =
        (call "other", 3)) := by
  refine ⟨?_, ?_, ?_⟩
  · intro h1
    unfold Reset.inventoryAdjustQuantitiesWithReasonFallback
      Reset.reasonFallbacks
    simp [Reset.fallbackGo, h1]
  · intro h1 h2
    unfold Reset.inventoryAdjustQuantitiesWithReasonFallback
      Reset.reasonFallbacks
    simp [Reset.fallbackGo, h1, h2]
  · intro h1 h2
    unfold Reset.inventoryAdjustQuantitiesWithReasonFallback
      Reset.reasonFallbacks
    rcases hcase : Reset.hasInvalidReason (call "other") with hfalse | htrue
    · simp [Reset.fallbackGo, h1, h2, hcase]
    · simp [Reset.fallbackGo, h1, h2, hcase]

theorem spec_C4_witness :
    Reset.inventoryAdjustQuantitiesWithReasonFallback
      (fun reason =>
        if reason == "other" then ⟨some "group1", []⟩
        else ⟨none, [⟨"invalid reason", some "INVALID_REASON"⟩]⟩) =
      (⟨some "group1", []⟩, 3) ∧
    Reset.inventoryAdjustQuantitiesWithReasonFallback
      (fun _ => ⟨none, [⟨"invalid reason", some "INVALID_REASON"⟩]⟩) =
      (⟨none, [⟨"invalid reason", some "INVALID_REASON"⟩]⟩, 3) := by
  constructor
  · exact ((spec_C4 (fun reason =>
      if reason == "other" then ⟨some "group1", []⟩
      else ⟨none, [⟨"invalid reason", some "INVALID_REASON"⟩]⟩)).2.2
      rfl rfl).trans (by rfl)
  · exact ((spec_C4
      (fun _ => ⟨none, [⟨"invalid reason", some "INVALID_REASON"⟩]⟩)).2.2
      rfl rfl).trans (by rfl)

namespace Reset

/-- One entry of `InventoryResetResult.sampleErrors`. -/
structure SampleError where
  scope : String
  message : String
  code : Option String
deriving DecidableEq, Repr

/-- `InventoryResetResult`. -/
structure ResetResult where
  ok : Bool
  locations : Nat
  variantsScanned : Nat
  inventoryAdjustCalls : Nat
  inventoryAdjustUserErrors : Nat
  inventoryAdjustIgnoredNotStockedErrors : Nat
  policyUpdateCalls : Nat
  policyUpdatedVariants : Nat
  policyUpdateUserErrors : Nat
  sampleErrors : List SampleError
deriving DecidableEq, Repr

/-- The `inventoryItem { id tracked }` selection of a variant. -/
structure InvItemRef where
  id : String
  tracked : Bool
deriving DecidableEq, Repr

/-- One node of the `productVariants` query inside `runInventoryReset`. -/
structure Variant where
  id : String
  inventoryPolicy : String
  productId : String
  inventoryItem : Option InvItemRef
deriving DecidableEq, Repr

/-- The scripted remote of `runInventoryReset`: the per-id element of each
`nodes(ids:)` levels response, the `inventoryAdjustQuantities` response per
(changes, reason), and the `productVariantsBulkUpdate` user-errors per
(productId, bulk variant inputs). -/
structure ResetRemote where
  nodeOf : String → InvNode
  adjust : List InventoryChange → String → AdjustResp
  bulkUpdate : String → List (String × String) → List UserError

/-- The per-error body of the `inventoryAdjustQuantities` aggregation loop:
the `ITEM_NOT_STOCKED_AT_LOCATION` code only bumps the ignored counter;
any other error flips `ok`, bumps the failure counter, and is sampled while
fewer than 25 samples exist. -/
def applyInvError (r : ResetResult) (e : UserError) : ResetResult :=
  if e.code == some "ITEM_NOT_STOCKED_AT_LOCATION" then
    { r with inventoryAdjustIgnoredNotStockedErrors :=
        r.inventoryAdjustIgnoredNotStockedErrors + 1 }
  else
    let r1 := { r with
      ok := false
      inventoryAdjustUserErrors := r.inventoryAdjustUserErrors + 1 }
    if r1.sampleErrors.length < 25 then
      { r1 with sampleErrors := r1.sampleErrors ++
          [⟨"inventoryAdjustQuantities", e.message, truthyOpt e.code⟩] }
    else r1

/-- One iteration of `for (const chunk of chunkArray(changes, 250))`: run
the mutation via the reason fallback, count the call, aggregate the
response's user-errors. -/
def adjustChunk (remote : ResetRemote) (r : ResetResult)
    (chunk : List InventoryChange) : ResetResult :=
  let inv := (inventoryAdjustQuantitiesWithReasonFallback
    (remote.adjust chunk)).1
  let r1 := { r with inventoryAdjustCalls := r.inventoryAdjustCalls + 1 }
  inv.userErrors.foldl applyInvError r1

/-- Step 1 of a page: zero out the fetched changes chunk by chunk. -/
def adjustPhase (remote : ResetRemote) (changes : List InventoryChange)
    (r : ResetResult) : ResetResult :=
  (chunkArray changes 250).foldl (adjustChunk remote) r

/-- The per-error body of the `productVariantsBulkUpdate` aggregation
loop. -/
def applyPolicyError (r : ResetResult) (e : UserError) : ResetResult :=
  let r1 := { r with
    ok := false
    policyUpdateUserErrors := r.policyUpdateUserErrors + 1 }
  if r1.sampleErrors.length < 25 then
    { r1 with sampleErrors := r1.sampleErrors ++
        [⟨"productVariantsBulkUpdate", e.message, truthyOpt e.code⟩] }
  else r1

/-- One `productVariantsBulkUpdate` chunk: dispatch the mutation, count the
call, add the chunk's full length to `policyUpdatedVariants`, aggregate the
user-errors. -/
def policyChunk (remote : ResetRemote) (productId : String) (r : ResetResult)
    (chunk : List String) : ResetResult :=
  let errs := remote.bulkUpdate productId
    (chunk.map (fun vid => (vid, "DENY")))
  let r1 := { r with
    policyUpdateCalls := r.policyUpdateCalls + 1
    policyUpdatedVariants := r.policyUpdatedVariants + chunk.length }
  errs.foldl applyPolicyError r1

/-- All chunks of one product's variant group. -/
def policyProduct (remote : ResetRemote) (r : ResetResult)
    (kv : String × List String) : ResetResult :=
  (chunkArray kv.2 250).foldl (policyChunk remote kv.1) r

/-- Step 2 of a page: walk `policyByProduct` in insertion order. -/
def policyPhase (remote : ResetRemote)
    (policyByProduct : List (String × List String)) (r : ResetResult) :
    ResetResult :=
  policyByProduct.foldl (policyProduct remote) r

/-- `Map#set` keeping the key's original insertion position. -/
def setAssoc : List (String × List String) → String → List String →
    List (String × List String)
  | [], k, v => [(k, v)]
  | (k0, v0) :: rest, k, v =>
    if k0 == k then (k, v) :: rest else (k0, v0) :: setAssoc rest k v

/-- `Map#get(k) || []`. -/
def getAssocD (m : List (String × List String)) (k : String) : List String :=
  match m.lookup k with
  | some v => v
  | none => []

/-- The per-variant body of the page's first loop: group non-DENY variants
by product, and collect the inventory item ids of tracked items. -/
def collectVariant (acc : List (String × List String) × List String)
    (v : Variant) : List (String × List String) × List String :=
  let pm :=
    if v.inventoryPolicy ≠ "DENY" then
      setAssoc acc.1 v.productId (getAssocD acc.1 v.productId ++ [v.id])
    else acc.1
  let items :=
    match v.inventoryItem with
    | some it =>
      if truthyStr it.id then
        if it.tracked then acc.2 ++ [it.id] else acc.2
      else acc.2
    | none => acc.2
  (pm, items)

/-- `Array.from(new Set(xs))`: first occurrences in order. -/
def dedupFirst (xs : List String) : List String :=
  xs.foldl (fun acc x => if acc.contains x then acc else acc ++ [x]) []

/-- Everything `runInventoryReset` does for one `productVariants` page. -/
def resetPage (remote : ResetRemote) (locationIds : List String)
    (r : ResetResult) (variants : List Variant) : ResetResult :=
  let r1 := { r with variantsScanned := r.variantsScanned + variants.length }
  let collected := variants.foldl collectVariant ([], [])
  let uniqueInventoryItemIds := dedupFirst collected.2
  let changes := getInventoryZeroingChanges remote.nodeOf
    uniqueInventoryItemIds locationIds
  let r2 := adjustPhase remote changes r1
  policyPhase remote collected.1 r2

/-- The `while (true)` page loop, run against a scripted page sequence;
`none` models a script exhausted while `hasNextPage` was still true. -/
def resetLoop (remote : ResetRemote) (locationIds : List String) :
    List (Page Variant) → ResetResult → Option ResetResult
  | [], _ => none
  | p :: rest, r =>
    let r1 := resetPage remote locationIds r p.nodes
    if p.hasNextPage then resetLoop remote locationIds rest r1 else some r1

/-- The freshly initialized `InventoryResetResult`. -/
def initResetResult (nLocations : Nat) : ResetResult :=
  ⟨true, nLocations, 0, 0, 0, 0, 0, 0, 0, []⟩

/-- `runInventoryReset`. -/
def runInventoryReset (remote : ResetRemote) (locationIds : List String)
    (pages : List (Page Variant)) : Option ResetResult :=
  resetLoop remote locationIds pages (initResetResult locationIds.length)

end Reset

set_option maxRecDepth 8000 in
/-- C3: in the chunked `inventoryAdjustQuantities` aggregation, an
`ITEM_NOT_STOCKED_AT_LOCATION` user-error only bumps the ignored-not-stocked
counter, leaving `ok`, the failure counter and the samples unchanged; any
other user-error sets `ok := false`, bumps the failure counter and is sampled
exactly while fewer than 25 samples exist; 30 user-errors of which 5 are the
benign code yield `ok = false`, 5 ignored, 25 failures and exactly 25
samples. -/
theorem spec_C3 :
    (∀ (r : Reset.ResetResult) (e : Reset.UserError),
      e.code = some "ITEM_NOT_STOCKED_AT_LOCATION" →
      (Reset.applyInvError r e).inventoryAdjustIgnoredNotStockedErrors =
        r.inventoryAdjustIgnoredNotStockedErrors + 1 ∧
      (Reset.applyInvError r e).ok = r.ok ∧
      (Reset.applyInvError r e).inventoryAdjustUserErrors =
        r.inventoryAdjustUserErrors ∧
      (Reset.applyInvError r e).sampleErrors = r.sampleErrors) ∧
    (∀ (r : Reset.ResetResult) (e : Reset.UserError),
      e.code ≠ some "ITEM_NOT_STOCKED_AT_LOCATION" →
      (Reset.applyInvError r e).ok = false ∧
      (Reset.applyInvError r e).inventoryAdjustUserErrors =
        r.inventoryAdjustUserErrors + 1 ∧
      (Reset.applyInvError r e).inventoryAdjustIgnoredNotStockedErrors =
        r.inventoryAdjustIgnoredNotStockedErrors ∧
      (Reset.applyInvError r e).sampleErrors =
        (if r.sampleErrors.length < 25 then
          r.sampleErrors ++
            [⟨"inventoryAdjustQuantities", e.message, truthyOpt e.code⟩]
        else r.sampleErrors)) ∧
    (((List.replicate 5
        (⟨"not stocked", some "ITEM_NOT_STOCKED_AT_LOCATION"⟩ :
          Reset.UserError) ++
      List.replicate 25
        (⟨"boom", some "SOMETHING_ELSE"⟩ : Reset.UserError)).foldl
        Reset.applyInvError (Reset.initResetResult 0)).ok = false ∧
     ((List.replicate 5
        (⟨"not stocked", some "ITEM_NOT_STOCKED_AT_LOCATION"⟩ :
          Reset.UserError) ++
      List.replicate 25
        (⟨"boom", some "SOMETHING_ELSE"⟩ : Reset.UserError)).foldl
        Reset.applyInvError
        (Reset.initResetResult 0)).inventoryAdjustIgnoredNotStockedErrors =
        5 ∧
     ((List.replicate 5
        (⟨"not stocked", some "ITEM_NOT_STOCKED_AT_LOCATION"⟩ :
          Reset.UserError) ++
      List.replicate 25
        (⟨"boom", some "SOMETHING_ELSE"⟩ : Reset.UserError)).foldl
        Reset.applyInvError
        (Reset.initResetResult 0)).inventoryAdjustUserErrors = 25 ∧
     ((List.replicate 5
        (⟨"not stocked", some "ITEM_NOT_STOCKED_AT_LOCATION"⟩ :
          Reset.UserError) ++
      List.replicate 25
        (⟨"boom", some "SOMETHING_ELSE"⟩ : Reset.UserError)).foldl
        Reset.applyInvError
        (Reset.initResetResult 0)).sampleErrors.length = 25) := by
  refine ⟨?_, ?_, ?_⟩
  · intro r e h
    have hb : (e.code == some "ITEM_NOT_STOCKED_AT_LOCATION") = true :=
      beq_iff_eq.mpr h
    unfold Reset.applyInvError
    rw [hb]
    exact ⟨rfl, rfl, rfl, rfl⟩
  · intro r e h
    have hb : (e.code == some "ITEM_NOT_STOCKED_AT_LOCATION") = false := by
      simpa using h
    unfold Reset.applyInvError
    rw [hb]
    simp only [Bool.false_eq_true, if_false]
    refine ⟨?_, ?_, ?_, ?_⟩
    · split <;> rfl
    · split <;> rfl
    · split <;> rfl
    · split <;> simp
  · decide

theorem spec_C3_witness :
    (Reset.applyInvError (Reset.initResetResult 0)
        ⟨"not stocked", some "ITEM_NOT_STOCKED_AT_LOCATION"⟩).ok = true ∧
    (Reset.applyInvError (Reset.initResetResult 0)
        ⟨"boom", some "SOMETHING_ELSE"⟩).inventoryAdjustUserErrors = 1 := by
  constructor
  · exact ((spec_C3.1 (Reset.initResetResult 0)
      ⟨"not stocked", some "ITEM_NOT_STOCKED_AT_LOCATION"⟩ rfl).2.1).trans
      (by rfl)
  · exact ((spec_C3.2.1 (Reset.initResetResult 0)
      ⟨"boom", some "SOMETHING_ELSE"⟩ (by decide)).2.1).trans (by rfl)

theorem foldl_preserve {α β : Type} (P : α → Prop) (f : α → β → α)
    (h : ∀ a b, P a → P (f a b)) :
    ∀ (l : List β) (a : α), P a → P (l.foldl f a) := by
  intro l
  induction l with
  | nil => intro a ha; exact ha
  | cons x xs ih => intro a ha; exact ih (f a x) (h a x ha)

theorem collectVariant_fst_of_deny (v : Reset.Variant)
    (acc : List (String × List String) × List String)
    (h : v.inventoryPolicy = "DENY") :
    (Reset.collectVariant acc v).1 = acc.1 := by
  unfold Reset.collectVariant
  simp [h]

theorem collect_fst_of_all_deny :
    ∀ (variants : List Reset.Variant)
      (acc : List (String × List String) × List String),
      (∀ v ∈ variants, v.inventoryPolicy = "DENY") →
      (variants.foldl Reset.collectVariant acc).1 = acc.1 := by
  intro variants
  induction variants with
  | nil => intro acc _; rfl
  | cons v vs ih =>
    intro acc hall
    rw [List.foldl_cons, ih _ (fun w hw => hall w (List.mem_cons_of_mem v hw))]
    exact collectVariant_fst_of_deny v acc (hall v (List.mem_cons_self v vs))

theorem getInventoryZeroingChanges_eq_nil (nodeOf : String → Reset.InvNode)
    (ids allowed : List String)
    (h : ∀ s, Reset.nodeChanges allowed (nodeOf s) = []) :
    Reset.getInventoryZeroingChanges nodeOf ids allowed = [] := by
  unfold Reset.getInventoryZeroingChanges
  rw [List.flatten_eq_nil_iff]
  intro x hx
  rw [List.mem_map] at hx
  obtain ⟨chunk, _, rfl⟩ := hx
  rw [List.flatten_eq_nil_iff]
  intro y hy
  rw [List.mem_map] at hy
  obtain ⟨node, hnode, rfl⟩ := hy
  rw [List.mem_map] at hnode
  obtain ⟨s, _, rfl⟩ := hnode
  exact h s

theorem adjustPhase_nil (remote : Reset.ResetRemote) (r : Reset.ResetResult) :
    Reset.adjustPhase remote [] r = r := rfl

theorem policyPhase_nil (remote : Reset.ResetRemote) (r : Reset.ResetResult) :
    Reset.policyPhase remote [] r = r := rfl

theorem resetPage_idle (remote : Reset.ResetRemote)
    (locationIds : List String) (r : Reset.ResetResult)
    (variants : List Reset.Variant)
    (hdeny : ∀ v ∈ variants, v.inventoryPolicy = "DENY")
    (hzero : ∀ s, Reset.nodeChanges locationIds (remote.nodeOf s) = []) :
    Reset.resetPage remote locationIds r variants =
      { r with variantsScanned := r.variantsScanned + variants.length } := by
  unfold Reset.resetPage
  dsimp only
  rw [collect_fst_of_all_deny variants ([], []) hdeny,
    getInventoryZeroingChanges_eq_nil remote.nodeOf _ locationIds hzero]
  rfl

theorem resetLoop_idle (remote : Reset.ResetRemote)
    (locationIds : List String) :
    ∀ (pages : List (Reset.Page Reset.Variant)) (r : Reset.ResetResult)
      (res : Reset.ResetResult),
      (∀ p ∈ pages, ∀ v ∈ p.nodes, v.inventoryPolicy = "DENY") →
      (∀ s, Reset.nodeChanges locationIds (remote.nodeOf s) = []) →
      Reset.resetLoop remote locationIds pages r = some res →
      res.ok = r.ok ∧ res.policyUpdateCalls = r.policyUpdateCalls ∧
        res.inventoryAdjustCalls = r.inventoryAdjustCalls := by
  intro pages
  induction pages with
  | nil => intro r res _ _ h; cases h
  | cons p rest ih =>
    intro r res hdeny hzero h
    unfold Reset.resetLoop at h
    rw [resetPage_idle remote locationIds r p.nodes
      (hdeny p (List.mem_cons_self p rest)) hzero] at h
    split at h
    · exact ih { r with variantsScanned := r.variantsScanned + p.nodes.length }
        res (fun q hq => hdeny q (List.mem_cons_of_mem p hq)) hzero h
    · cases h
      exact ⟨rfl, rfl, rfl⟩

/-- C9: when every scanned variant already has inventory policy DENY the
per-product grouping stays empty, so the policy-update loop dispatches no
`productVariantsBulkUpdate` chunk; re-run against an already-reset store
(all policies DENY and no non-zero available quantities, so no zeroing
changes) the whole run makes zero mutation calls and returns `ok = true`. -/
theorem spec_C9 (remote : Reset.ResetRemote) (locationIds : List String)
    (pages : List (Reset.Page Reset.Variant)) :
    (∀ (acc : List (String × List String) × List String)
      (variants : List Reset.Variant),
      (∀ v ∈ variants, v.inventoryPolicy = "DENY") →
      (variants.foldl Reset.collectVariant acc).1 = acc.1) ∧
    (∀ res : Reset.ResetResult,
      (∀ p ∈ pages, ∀ v ∈ p.nodes, v.inventoryPolicy = "DENY") →
      (∀ s, Reset.nodeChanges locationIds (remote.nodeOf s) = []) →
      Reset.runInventoryReset remote locationIds pages = some res →
      res.policyUpdateCalls = 0 ∧ res.inventoryAdjustCalls = 0 ∧
        res.ok = true) := by
  constructor
  · intro acc variants h
    exact collect_fst_of_all_deny variants acc h
  · intro res hdeny hzero hrun
    have h := resetLoop_idle remote locationIds pages
      (Reset.initResetResult locationIds.length) res hdeny hzero hrun
    exact ⟨h.2.1, h.2.2, h.1⟩

theorem spec_C9_witness :
    Reset.runInventoryReset
      ⟨fun _ => Reset.InvNode.item "item1" [⟨"L1", [⟨"available", 0⟩]⟩],
        fun _ _ => ⟨none, []⟩, fun _ _ => []⟩
      ["L1"]
      [⟨[⟨"v1", "DENY", "p1", some ⟨"item1", true⟩⟩], false, none⟩] =
      some ⟨true, 1, 1, 0, 0, 0, 0, 0, 0, []⟩ ∧
    (⟨true, 1, 1, 0, 0, 0, 0, 0, 0, []⟩ : Reset.ResetResult).policyUpdateCalls
      = 0 := by
  constructor
  · rfl
  · exact ((spec_C9
      ⟨fun _ => Reset.InvNode.item "item1" [⟨"L1", [⟨"available", 0⟩]⟩],
        fun _ _ => ⟨none, []⟩, fun _ _ => []⟩
      ["L1"]
      [⟨[⟨"v1", "DENY", "p1", some ⟨"item1", true⟩⟩], false, none⟩]).2
      ⟨true, 1, 1, 0, 0, 0, 0, 0, 0, []⟩
      (by
        intro p hp v hv
        rcases List.mem_cons.mp hp with rfl | hempty
        · rcases List.mem_cons.mp hv with rfl | hv2
          · rfl
          · cases hv2
        · cases hempty)
      (by intro s; rfl)
      rfl).1

theorem applyPolicyError_updatedVariants (r : Reset.ResetResult)
    (e : Reset.UserError) :
    (Reset.applyPolicyError r e).policyUpdatedVariants =
      r.policyUpdatedVariants := by
  unfold Reset.applyPolicyError
  dsimp only
  split <;> rfl

theorem foldl_applyPolicyError_updatedVariants :
    ∀ (errs : List Reset.UserError) (r : Reset.ResetResult),
      (errs.foldl Reset.applyPolicyError r).policyUpdatedVariants =
        r.policyUpdatedVariants := by
  intro errs
  induction errs with
  | nil => intro r; rfl
  | cons e es ih =>
    intro r
    rw [List.foldl_cons, ih, applyPolicyError_updatedVariants]

/-- C10: every dispatched `productVariantsBulkUpdate` chunk adds its full
length to `policyUpdatedVariants` no matter what user-errors the response
carries, so the "variants switched to DENY" count includes failed updates:
a one-variant run whose only bulk update fails still reports
`policyUpdatedVariants = 1` alongside `policyUpdateUserErrors = 1` and
`ok = false`. -/
theorem spec_C10 :
    (∀ (remote : Reset.ResetRemote) (productId : String)
      (r : Reset.ResetResult) (chunk : List String),
      (Reset.policyChunk remote productId r chunk).policyUpdatedVariants =
        r.policyUpdatedVariants + chunk.length) ∧
    Reset.runInventoryReset
      ⟨fun _ => Reset.InvNode.null, fun _ _ => ⟨none, []⟩,
        fun _ _ => [⟨"failed", none⟩]⟩
      ["L1"]
      [⟨[⟨"v1", "CONTINUE", "p1", none⟩], false, none⟩] =
      some ⟨false, 1, 1, 0, 0, 0, 1, 1, 1,
        [⟨"productVariantsBulkUpdate", "failed", none⟩]⟩ := by
  constructor
  · intro remote productId r chunk
    unfold Reset.policyChunk
    rw [foldl_applyPolicyError_updatedVariants]
  · rfl

theorem spec_C10_witness :
    (Reset.policyChunk
      ⟨fun _ => Reset.InvNode.null, fun _ _ => ⟨none, []⟩,
        fun _ _ => [⟨"failed", none⟩]⟩
      "p1" (Reset.initResetResult 1)
      ["v1", "v2"]).policyUpdatedVariants = 0 + 2 := by
  exact (spec_C10.1
    ⟨fun _ => Reset.InvNode.null, fun _ _ => ⟨none, []⟩,
      fun _ _ => [⟨"failed", none⟩]⟩
    "p1" (Reset.initResetResult 1) ["v1", "v2"]).trans (by rfl)

namespace Archive

/-- One node of the vendor-filtered `products` query. -/
structure Product where
  id : String
  status : String
deriving DecidableEq, Repr

/-- `ArchivePeruzzoResult`. -/
structure ArchiveResult where
  ok : Bool
  scanned : Nat
  archived : Nat
  alreadyArchived : Nat
  userErrors : Nat
  sampleErrors : List Reset.SampleError
deriving DecidableEq, Repr

/-- The sample push of the archive error loop. -/
def archiveSampleStep (r : ArchiveResult) (e : Reset.UserError) :
    ArchiveResult :=
  if r.sampleErrors.length < 25 then
    { r with sampleErrors := r.sampleErrors ++
        [⟨"productUpdate", e.message, truthyOpt e.code⟩] }
  else r

/-- The per-product body of `archiveProductsByVendor`: count the scan, skip
already-archived products, otherwise run `productUpdate` (scripted by
`update : product id → user-errors`) and either record the failure or count
the archive. -/
def archiveProduct (update : String → List Reset.UserError)
    (r : ArchiveResult) (p : Product) : ArchiveResult :=
  let r1 := { r with scanned := r.scanned + 1 }
  if p.status == "ARCHIVED" then
    { r1 with alreadyArchived := r1.alreadyArchived + 1 }
  else
    let errs := update p.id
    if errs.length > 0 then
      let r2 := { r1 with
        ok := false
        userErrors := r1.userErrors + errs.length }
      errs.foldl archiveSampleStep r2
    else { r1 with archived := r1.archived + 1 }

/-- The `while (true)` page loop of `archiveProductsByVendor`; the scripted
`pages` are the responses of the vendor-filtered `products` query. -/
def archiveLoop (update : String → List Reset.UserError) :
    List (Reset.Page Product) → ArchiveResult → Option ArchiveResult
  | [], _ => none
  | pg :: rest, r =>
    let r1 := pg.nodes.foldl (archiveProduct update) r
    if pg.hasNextPage then archiveLoop update rest r1 else some r1

/-- `archiveProductsByVendor`. -/
def archiveProductsByVendor (update : String → List Reset.UserError)
    (pages : List (Reset.Page Product)) : Option ArchiveResult :=
  archiveLoop update pages ⟨true, 0, 0, 0, 0, []⟩

end Archive

namespace Scan

/-- One node of the policy-scan `productVariants` query. -/
structure ScanVariant where
  id : String
  title : String
  sku : Option String
  inventoryPolicy : String
  productId : String
  productTitle : String
  productHandle : String
deriving DecidableEq, Repr

/-- One entry of `sampleOffenders`. -/
structure Offender where
  productTitle : String
  productHandle : String
  variantTitle : String
  sku : Option String
deriving DecidableEq, Repr

/-- `InventoryPolicyScanResult`. -/
structure ScanResult where
  ok : Bool
  productsScanned : Nat
  variantsScanned : Nat
  productsWithContinue : Nat
  variantsWithContinue : Nat
  sampleOffenders : List Offender
deriving DecidableEq, Repr

/-- `Set#add`: insert if absent, keeping insertion order. -/
def addSet (s : List String) (x : String) : List String :=
  if s.contains x then s else s ++ [x]

/-- The scan's loop state: the result under construction plus the
`productIds` and `productIdsWithContinue` sets. -/
structure ScanState where
  result : ScanResult
  productIds : List String
  productIdsWithContinue : List String

/-- The per-variant body of `scanInventoryPolicies`: always add the parent
product id; on a CONTINUE policy flip `ok`, count the offender, add the
product to the continue-set, and sample while fewer than 25 samples
exist. -/
def scanStep (st : ScanState) (v : ScanVariant) : ScanState :=
  let pids := addSet st.productIds v.productId
  if v.inventoryPolicy == "CONTINUE" then
    let r1 : ScanResult := { st.result with
      ok := false
      variantsWithContinue := st.result.variantsWithContinue + 1 }
    let pidsC := addSet st.productIdsWithContinue v.productId
    let r2 : ScanResult :=
      if r1.sampleOffenders.length < 25 then
        { r1 with sampleOffenders := r1.sampleOffenders ++
            [⟨v.productTitle, v.productHandle, v.title, v.sku⟩] }
      else r1
    ⟨r2, pids, pidsC⟩
  else ⟨st.result, pids, st.productIdsWithContinue⟩

/-- The page loop of `scanInventoryPolicies`. -/
def scanLoop : List (Reset.Page ScanVariant) → ScanState → Option ScanState
  | [], _ => none
  | pg :: rest, st =>
    let st1 := pg.nodes.foldl scanStep
      ⟨{ st.result with
          variantsScanned := st.result.variantsScanned + pg.nodes.length },
        st.productIds, st.productIdsWithContinue⟩
    if pg.hasNextPage then scanLoop rest st1 else some st1

/-- `scanInventoryPolicies`: run the loop from a fresh result and set the
two set-size counters at the end. -/
def scanInventoryPolicies (pages : List (Reset.Page ScanVariant)) :
    Option ScanResult :=
  match scanLoop pages ⟨⟨true, 0, 0, 0, 0, []⟩, [], []⟩ with
  | none => none
  | some st => some { st.result with
      productsScanned := st.productIds.length
      productsWithContinue := st.productIdsWithContinue.length }

end Scan

def ResetOkInv (r : Reset.ResetResult) : Prop :=
  r.ok = true ↔
    (r.inventoryAdjustUserErrors = 0 ∧ r.policyUpdateUserErrors = 0)

theorem applyInvError_okInv (r : Reset.ResetResult) (e : Reset.UserError)
    (h : ResetOkInv r) : ResetOkInv (Reset.applyInvError r e) := by
  unfold Reset.applyInvError
  dsimp only
  split
  · exact h
  · split
    · unfold ResetOkInv
      simp
    · unfold ResetOkInv
      simp

theorem applyPolicyError_okInv (r : Reset.ResetResult) (e : Reset.UserError)
    (h : ResetOkInv r) : ResetOkInv (Reset.applyPolicyError r e) := by
  unfold Reset.applyPolicyError
  dsimp only
  split
  · unfold ResetOkInv
    simp
  · unfold ResetOkInv
    simp

theorem adjustChunk_okInv (remote : Reset.ResetRemote)
    (r : Reset.ResetResult) (chunk : List Reset.InventoryChange)
    (h : ResetOkInv r) : ResetOkInv (Reset.adjustChunk remote r chunk) := by
  unfold Reset.adjustChunk
  dsimp only
  exact foldl_preserve ResetOkInv Reset.applyInvError applyInvError_okInv _ _ h

theorem adjustPhase_okInv (remote : Reset.ResetRemote)
    (changes : List Reset.InventoryChange) (r : Reset.ResetResult)
    (h : ResetOkInv r) : ResetOkInv (Reset.adjustPhase remote changes r) :=
  foldl_preserve ResetOkInv (Reset.adjustChunk remote)
    (adjustChunk_okInv remote) _ r h

theorem policyChunk_okInv (remote : Reset.ResetRemote) (productId : String)
    (r : Reset.ResetResult) (chunk : List String)
    (h : ResetOkInv r) :
    ResetOkInv (Reset.policyChunk remote productId r chunk) := by
  unfold Reset.policyChunk
  dsimp only
  exact foldl_preserve ResetOkInv Reset.applyPolicyError
    applyPolicyError_okInv _ _ h

theorem policyProduct_okInv (remote : Reset.ResetRemote)
    (r : Reset.ResetResult) (kv : String × List String)
    (h : ResetOkInv r) : ResetOkInv (Reset.policyProduct remote r kv) :=
  foldl_preserve ResetOkInv (Reset.policyChunk remote kv.1)
    (policyChunk_okInv remote kv.1) _ r h

theorem policyPhase_okInv (remote : Reset.ResetRemote)
    (policyByProduct : List (String × List String)) (r : Reset.ResetResult)
    (h : ResetOkInv r) :
    ResetOkInv (Reset.policyPhase remote policyByProduct r) :=
  foldl_preserve ResetOkInv (Reset.policyProduct remote)
    (policyProduct_okInv remote) _ r h

theorem resetPage_okInv (remote : Reset.ResetRemote)
    (locationIds : List String) (r : Reset.ResetResult)
    (variants : List Reset.Variant) (h : ResetOkInv r) :
    ResetOkInv (Reset.resetPage remote locationIds r variants) := by
  unfold Reset.resetPage
  dsimp only
  exact policyPhase_okInv remote _ _ (adjustPhase_okInv remote _ _ h)

theorem resetLoop_okInv (remote : Reset.ResetRemote)
    (locationIds : List String) :
    ∀ (pages : List (Reset.Page Reset.Variant)) (r res : Reset.ResetResult),
      Reset.resetLoop remote locationIds pages r = some res →
      ResetOkInv r → ResetOkInv res := by
  intro pages
  induction pages with
  | nil => intro r res h; cases h
  | cons p rest ih =>
    intro r res h hr
    unfold Reset.resetLoop at h
    split at h
    · exact ih _ res h (resetPage_okInv remote locationIds r p.nodes hr)
    · cases h
      exact resetPage_okInv remote locationIds r p.nodes hr

def ArchiveOkInv (r : Archive.ArchiveResult) : Prop :=
  r.ok = true ↔ r.userErrors = 0

theorem archiveSampleStep_fields (r : Archive.ArchiveResult)
    (e : Reset.UserError) :
    (Archive.archiveSampleStep r e).ok = r.ok ∧
      (Archive.archiveSampleStep r e).userErrors = r.userErrors := by
  unfold Archive.archiveSampleStep
  split <;> exact ⟨rfl, rfl⟩

theorem foldl_archiveSampleStep_fields :
    ∀ (errs : List Reset.UserError) (r : Archive.ArchiveResult),
      ((errs.foldl Archive.archiveSampleStep r).ok = r.ok ∧
        (errs.foldl Archive.archiveSampleStep r).userErrors = r.userErrors) := by
  intro errs
  induction errs with
  | nil => intro r; exact ⟨rfl, rfl⟩
  | cons e es ih =>
    intro r
    rw [List.foldl_cons]
    have h1 := ih (Archive.archiveSampleStep r e)
    have h2 := archiveSampleStep_fields r e
    exact ⟨h1.1.trans h2.1, h1.2.trans h2.2⟩

theorem archiveProduct_okInv (update : String → List Reset.UserError)
    (r : Archive.ArchiveResult) (p : Archive.Product)
    (h : ArchiveOkInv r) :
    ArchiveOkInv (Archive.archiveProduct update r p) := by
  unfold Archive.archiveProduct
  dsimp only
  split
  · exact h
  · split
    · rename_i hlen
      have hf := foldl_archiveSampleStep_fields (update p.id)
        { ok := false, scanned := r.scanned + 1, archived := r.archived,
          alreadyArchived := r.alreadyArchived,
          userErrors := r.userErrors + (update p.id).length,
          sampleErrors := r.sampleErrors }
      unfold ArchiveOkInv
      rw [hf.1, hf.2]
      dsimp only
      constructor
      · intro hfalse
        cases hfalse
      · intro hzero
        exact absurd hzero (by omega)
    · exact h

theorem archiveLoop_okInv (update : String → List Reset.UserError) :
    ∀ (pages : List (Reset.Page Archive.Product))
      (r res : Archive.ArchiveResult),
      Archive.archiveLoop update pages r = some res →
      ArchiveOkInv r → ArchiveOkInv res := by
  intro pages
  induction pages with
  | nil => intro r res h; cases h
  | cons pg rest ih =>
    intro r res h hr
    unfold Archive.archiveLoop at h
    have hstep := foldl_preserve ArchiveOkInv
      (Archive.archiveProduct update) (archiveProduct_okInv update)
      pg.nodes r hr
    split at h
    · exact ih _ res h hstep
    · cases h
      exact hstep

def ScanOkInv (st : Scan.ScanState) : Prop :=
  st.result.ok = true ↔ st.result.variantsWithContinue = 0

theorem scanStep_okInv (st : Scan.ScanState) (v : Scan.ScanVariant)
    (h : ScanOkInv st) : ScanOkInv (Scan.scanStep st v) := by
  unfold Scan.scanStep
  dsimp only
  split
  · unfold ScanOkInv
    split <;> simp
  · exact h

theorem scanLoop_okInv :
    ∀ (pages : List (Reset.Page Scan.ScanVariant)) (st res : Scan.ScanState),
      Scan.scanLoop pages st = some res → ScanOkInv st → ScanOkInv res := by
  intro pages
  induction pages with
  | nil => intro st res h; cases h
  | cons pg rest ih =>
    intro st res h hst
    unfold Scan.scanLoop at h
    have hstep := foldl_preserve ScanOkInv Scan.scanStep scanStep_okInv
      pg.nodes
      ⟨{ st.result with
          variantsScanned := st.result.variantsScanned + pg.nodes.length },
        st.productIds, st.productIdsWithContinue⟩ hst
    split at h
    · exact ih _ res h hstep
    · cases h
      exact hstep

/-- C8: for every orchestrator run — vendor archive, policy scan, inventory
reset — the returned `ok` flag is true exactly when zero failures were
recorded over the whole run (archive: `userErrors`; scan:
`variantsWithContinue`; reset: the inventory-adjust and policy-update
user-error counters); errors are aggregated and the run always completes
with a result rather than aborting. -/
theorem spec_C8 :
    (∀ (update : String → List Reset.UserError)
      (pages : List (Reset.Page Archive.Product))
      (res : Archive.ArchiveResult),
      Archive.archiveProductsByVendor update pages = some res →
      (res.ok = true ↔ res.userErrors = 0)) ∧
    (∀ (pages : List (Reset.Page Scan.ScanVariant)) (res : Scan.ScanResult),
      Scan.scanInventoryPolicies pages = some res →
      (res.ok = true ↔ res.variantsWithContinue = 0)) ∧
    (∀ (remote : Reset.ResetRemote) (locationIds : List String)
      (pages : List (Reset.Page Reset.Variant)) (res : Reset.ResetResult),
      Reset.runInventoryReset remote locationIds pages = some res →
      (res.ok = true ↔
        (res.inventoryAdjustUserErrors = 0 ∧
          res.policyUpdateUserErrors = 0))) := by
  refine ⟨?_, ?_, ?_⟩
  · intro update pages res h
    exact archiveLoop_okInv update pages ⟨true, 0, 0, 0, 0, []⟩ res h
      (by unfold ArchiveOkInv; simp)
  · intro pages res h
    unfold Scan.scanInventoryPolicies at h
    split at h
    · cases h
    · rename_i st hst
      cases h
      exact scanLoop_okInv pages ⟨⟨true, 0, 0, 0, 0, []⟩, [], []⟩ st hst
        (by unfold ScanOkInv; simp)
  · intro remote locationIds pages res h
    exact resetLoop_okInv remote locationIds pages
      (Reset.initResetResult locationIds.length) res h
      (by unfold ResetOkInv Reset.initResetResult; simp)

theorem spec_C8_witness :
    (Archive.archiveProductsByVendor (fun _ => [⟨"err", none⟩])
        [⟨[⟨"p1", "ACTIVE"⟩], false, none⟩] =
      some ⟨false, 1, 0, 0, 1, [⟨"productUpdate", "err", none⟩]⟩ ∧
      ((⟨false, 1, 0, 0, 1, [⟨"productUpdate", "err", none⟩]⟩ :
        Archive.ArchiveResult).ok = true ↔
       (⟨false, 1, 0, 0, 1, [⟨"productUpdate", "err", none⟩]⟩ :
        Archive.ArchiveResult).userErrors = 0)) ∧
    (Scan.scanInventoryPolicies
        [⟨[⟨"v1", "V1", none, "CONTINUE", "p1", "P1", "h1"⟩], false, none⟩] =
      some ⟨false, 1, 1, 1, 1, [⟨"P1", "h1", "V1", none⟩]⟩ ∧
      ((⟨false, 1, 1, 1, 1, [⟨"P1", "h1", "V1", none⟩]⟩ :
        Scan.ScanResult).ok = true ↔
       (⟨false, 1, 1, 1, 1, [⟨"P1", "h1", "V1", none⟩]⟩ :
        Scan.ScanResult).variantsWithContinue = 0)) ∧
    (Reset.runInventoryReset
        ⟨fun _ => Reset.InvNode.null, fun _ _ => ⟨none, []⟩, fun _ _ => []⟩
        ["L1"] [⟨[], false, none⟩] =
      some ⟨true, 1, 0, 0, 0, 0, 0, 0, 0, []⟩ ∧
      ((⟨true, 1, 0, 0, 0, 0, 0, 0, 0, []⟩ : Reset.ResetResult).ok = true ↔
       ((⟨true, 1, 0, 0, 0, 0, 0, 0, 0, []⟩ :
          Reset.ResetResult).inventoryAdjustUserErrors = 0 ∧
        (⟨true, 1, 0, 0, 0, 0, 0, 0, 0, []⟩ :
          Reset.ResetResult).policyUpdateUserErrors = 0))) := by
  refine ⟨⟨rfl, ?_⟩, ⟨rfl, ?_⟩, ⟨rfl, ?_⟩⟩
  · exact spec_C8.1 (fun _ => [⟨"err", none⟩])
      [⟨[⟨"p1", "ACTIVE"⟩], false, none⟩]
      ⟨false, 1, 0, 0, 1, [⟨"productUpdate", "err", none⟩]⟩ rfl
  · exact spec_C8.2.1
      [⟨[⟨"v1", "V1", none, "CONTINUE", "p1", "P1", "h1"⟩], false, none⟩]
      ⟨false, 1, 1, 1, 1, [⟨"P1", "h1", "V1", none⟩]⟩ rfl
  · exact spec_C8.2.2
      ⟨fun _ => Reset.InvNode.null, fun _ _ => ⟨none, []⟩, fun _ _ => []⟩
      ["L1"] [⟨[], false, none⟩] ⟨true, 1, 0, 0, 0, 0, 0, 0, 0, []⟩ rfl
